import Mathlib

/-!
Verification of the currency-exchange backend (`src/app.ts`).

The development shallowly embeds the core of the server:
* JavaScript numbers, as far as the conversion arithmetic exercises them,
  are modelled by `JsNum`: `NaN`, the two infinities and finite values as
  exact rationals.  Rounding of finite IEEE-754 results is not modelled and
  negative zero is identified with zero; `undefined` operands are folded to
  `NaN` at the property-lookup sites (JavaScript coerces `undefined` to
  `NaN` in arithmetic).  Because the program rounds finite results to
  binary64 while this model keeps them exact, no theorem asserts exact
  equality of a nontrivially rounded product: every statement about finite
  arithmetic either relates the same operations on both sides of its
  equation or involves only multiplication by the exact `1`, which binary64
  also performs exactly.
* The global cache `currencyCache` and the in-memory history store are
  explicit state threaded through the handlers.
* The upstream provider (axios) is an oracle argument: the `Except` value a
  fetch would produce at this moment.
* Route handlers are total functions returning a tagged outcome
  (success / validation error / upstream error / TypeError from a null
  property access) together with the post-state; the Express layer turns
  every thrown error into a 400/500 JSON body, so the tag records the throw
  site.
-/

/-- JavaScript number values as used by the conversion arithmetic: `NaN`,
the two infinities, and finite values modelled as exact rationals. -/
inductive JsNum where
  | nan
  | posInf
  | negInf
  | num (q : ℚ)
deriving DecidableEq, Repr

/-- JavaScript multiplication on `JsNum` (sign-correct, `NaN` absorbing,
`0 * ±Infinity = NaN`; finite products are exact). -/
def JsNum.mul : JsNum → JsNum → JsNum
  | .nan, _ => .nan
  | _, .nan => .nan
  | .posInf, .posInf => .posInf
  | .posInf, .negInf => .negInf
  | .negInf, .posInf => .negInf
  | .negInf, .negInf => .posInf
  | .posInf, .num q => if q = 0 then .nan else if 0 < q then .posInf else .negInf
  | .num q, .posInf => if q = 0 then .nan else if 0 < q then .posInf else .negInf
  | .negInf, .num q => if q = 0 then .nan else if 0 < q then .negInf else .posInf
  | .num q, .negInf => if q = 0 then .nan else if 0 < q then .negInf else .posInf
  | .num a, .num b => .num (a * b)

/-- JavaScript division on `JsNum` (`x / 0` is a signed infinity for
`x ≠ 0`, `0 / 0` and `∞ / ∞` are `NaN`, finite quotients are exact). -/
def JsNum.div : JsNum → JsNum → JsNum
  | .nan, _ => .nan
  | _, .nan => .nan
  | .posInf, .posInf => .nan
  | .posInf, .negInf => .nan
  | .negInf, .posInf => .nan
  | .negInf, .negInf => .nan
  | .posInf, .num q => if 0 ≤ q then .posInf else .negInf
  | .negInf, .num q => if 0 ≤ q then .negInf else .posInf
  | .num _, .posInf => .num 0
  | .num _, .negInf => .num 0
  | .num a, .num b =>
      if b = 0 then (if a = 0 then .nan else if 0 < a then .posInf else .negInf)
      else .num (a / b)

/-- The `isNaN` test used by the handlers. -/
def JsNum.isNaN : JsNum → Bool
  | .nan => true
  | _ => false

/-- Drop the leading whitespace `parseFloat` skips. -/
def dropWsChars : List Char → List Char
  | [] => []
  | c :: cs => if c = ' ' ∨ c = '\t' ∨ c = '\n' ∨ c = '\r' then dropWsChars cs else c :: cs

/-- Split a character list into its leading run of decimal digits and the rest. -/
def spanDigits : List Char → List Char × List Char
  | [] => ([], [])
  | c :: cs =>
      if c.isDigit then
        let p := spanDigits cs
        (c :: p.1, p.2)
      else ([], c :: cs)

/-- Numeric value of a digit run. -/
def valOfDigits (l : List Char) : Nat :=
  l.foldl (fun a c => a * 10 + (c.toNat - 48)) 0

/-- Exponent digits after an optional sign; an empty digit run contributes
exponent `0` (as `parseFloat` then stops before the `e`). -/
def parseExpDigits (r : List Char) (neg : Bool) : Int :=
  let p := spanDigits r
  if p.1.isEmpty then 0
  else if neg then -(valOfDigits p.1 : Int) else (valOfDigits p.1 : Int)

/-- Optional sign of the exponent part. -/
def parseExpSigned : List Char → Int
  | '+' :: r => parseExpDigits r false
  | '-' :: r => parseExpDigits r true
  | r => parseExpDigits r false

/-- The exponent part of a decimal literal, `0` when absent. -/
def parseExpPart : List Char → Int
  | 'e' :: rest => parseExpSigned rest
  | 'E' :: rest => parseExpSigned rest
  | _ => 0

/-- Scale a mantissa by a power of ten. -/
def applyExp (m : ℚ) (e : Int) : ℚ :=
  if 0 ≤ e then m * (10 : ℚ) ^ e.toNat else m / (10 : ℚ) ^ (-e).toNat

/-- Unsigned part of `parseFloat`: an `Infinity` literal or the longest
decimal-literal prefix; `NaN` when no digits are found. -/
def parseUnsignedFloat (cs : List Char) (neg : Bool) : JsNum :=
  match cs with
  | 'I' :: 'n' :: 'f' :: 'i' :: 'n' :: 'i' :: 't' :: 'y' :: _ =>
      if neg then .negInf else .posInf
  | _ =>
      let ip := spanDigits cs
      let fp : List Char × List Char :=
        match ip.2 with
        | '.' :: r => spanDigits r
        | _ => ([], ip.2)
      if ip.1.isEmpty ∧ fp.1.isEmpty then .nan
      else
        let m : ℚ := (valOfDigits ip.1 : ℚ) + (valOfDigits fp.1 : ℚ) / (10 : ℚ) ^ fp.1.length
        let v := applyExp m (parseExpPart fp.2)
        .num (if neg then -v else v)

/-- JavaScript `parseFloat` on a string (exact-rational result; finite
results are not rounded to binary64). -/
def parseFloatStr (s : String) : JsNum :=
  match dropWsChars s.toList with
  | '+' :: cs => parseUnsignedFloat cs false
  | '-' :: cs => parseUnsignedFloat cs true
  | cs => parseUnsignedFloat cs false

/-- JSON values that can appear as an amount in the bulk-conversion body:
numbers and strings (the shapes the endpoint is specified over). -/
inductive JsVal where
  | num (q : ℚ)
  | str (s : String)
deriving DecidableEq, Repr

/-- `parseFloat(amount)` for a bulk amount: a JSON number round-trips
through its decimal printing unchanged, a string is parsed. -/
def parseFloatVal : JsVal → JsNum
  | .num q => .num q
  | .str s => parseFloatStr s

/-- The currency list: the set of valid codes (the metadata values are
always-truthy objects the code never inspects beyond key membership). -/
def Currencies := List String
deriving instance DecidableEq for Currencies

/-- The rate table for the snapshot's base currency, as the association
list of a JSON object. -/
def Rates := List (String × ℚ)
deriving instance DecidableEq for Rates

/-- Membership of a code in the currency list (`!currencies[c]`). -/
def currenciesHas (curr : Currencies) (c : String) : Bool :=
  List.contains curr c

/-- Property read `rates[c]` folded into arithmetic: a missing key is
`undefined`, which every arithmetic use coerces to `NaN`. -/
def rateIndex (rs : Rates) (c : String) : JsNum :=
  match List.lookup c rs with
  | some q => .num q
  | none => .nan

/-- The global cache object `currencyCache`; every field starts as `null`
(`none`). -/
structure CurrencyCache where
  currencies : Option Currencies
  rates : Option Rates
  baseCurrency : Option String
  lastUpdated : Option Nat
deriving DecidableEq

/-- The initial cache (all fields `null`). -/
def initialCurrencyCache : CurrencyCache :=
  { currencies := none, rates := none, baseCurrency := none, lastUpdated := none }

/-- `CACHE_EXPIRATION = 5 * 60 * 1000` milliseconds. -/
def CACHE_EXPIRATION : Int := 5 * 60 * 1000

/-- Falsiness of the numeric field `lastUpdated` (`null` and `0` are falsy). -/
def jsFalsyTime : Option Nat → Bool
  | none => true
  | some t => t = 0

/-- The refresh condition of `updateCache`:
`!currencyCache.currencies || !currencyCache.lastUpdated ||
 (now - currencyCache.lastUpdated) > CACHE_EXPIRATION`. -/
def cacheExpired (now : Nat) (cache : CurrencyCache) : Bool :=
  cache.currencies.isNone || jsFalsyTime cache.lastUpdated ||
    (match cache.lastUpdated with
     | none => true
     | some t => decide ((now : Int) - (t : Int) > CACHE_EXPIRATION))

/-- `fetchAllCurrencies`: the axios call is the oracle argument; a failure
is mapped to the fixed error message the function throws. -/
def fetchAllCurrencies (axiosCurrencies : Except String Currencies) : Except String Currencies :=
  match axiosCurrencies with
  | .ok d => .ok d
  | .error _ => .error "Failed to fetch currency list"

/-- `fetchAllRates(baseCurrency)`: the axios call is the oracle argument
(indexed by the requested base); a failure is mapped to the fixed error
message the function throws. -/
def fetchAllRates (axiosRates : String → Except String Rates) (baseCurrency : String := "USD") :
    Except String Rates :=
  match axiosRates baseCurrency with
  | .ok d => .ok d
  | .error _ => .error "Failed to fetch exchange rates"

/-- Result of one `updateCache` call: the cache afterwards and the error it
rethrew, if any. -/
structure UpdateResult where
  cache : CurrencyCache
  error : Option String
deriving DecidableEq

/-- `updateCache(baseCurrency)` as a state transition on the global cache.
Cold or expired: both fetches run (`Promise.all`) and on success the whole
snapshot object is replaced; fresh with a different base: only the rate
table is fetched and `rates`, `baseCurrency`, `lastUpdated` are updated;
fresh with a matching base: no action.  A fetch failure is rethrown and no
assignment has happened. -/
def updateCache (axiosCurrencies : Except String Currencies)
    (axiosRates : String → Except String Rates) (now : Nat)
    (cache : CurrencyCache) (baseCurrency : String := "USD") : UpdateResult :=
  if cacheExpired now cache then
    match fetchAllCurrencies axiosCurrencies, fetchAllRates axiosRates baseCurrency with
    | .ok currencies, .ok rates =>
        ⟨{ currencies := some currencies, rates := some rates,
           baseCurrency := some baseCurrency, lastUpdated := some now }, none⟩
    | .error e, _ => ⟨cache, some e⟩
    | .ok _, .error e => ⟨cache, some e⟩
  else if cache.baseCurrency ≠ some baseCurrency then
    match fetchAllRates axiosRates baseCurrency with
    | .ok rates =>
        ⟨{ cache with
            rates := some rates
            baseCurrency := some baseCurrency
            lastUpdated := some now }, none⟩
    | .error e => ⟨cache, some e⟩
  else ⟨cache, none⟩

/-- A stored conversion record (`ConversionRecord` in the source); the
`timestamp` is the `Date` injected at append time, as epoch milliseconds. -/
structure ConversionRecord where
  userId : Option String
  fromCurrency : String
  toCurrency : String
  amount : JsNum
  result : JsNum
  rate : JsNum
  timestamp : Nat
deriving DecidableEq

/-- The client-supplied `conversion` body of a history append (the record
fields minus the server-set timestamp). -/
structure ConversionData where
  userId : Option String
  fromCurrency : String
  toCurrency : String
  amount : JsNum
  result : JsNum
  rate : JsNum
deriving DecidableEq

/-- The in-memory history store, as the total map a JavaScript object with
an explicit empty-list default gives (`conversionHistoryStore[userId]` is
initialised to `[]` on first use and read back as `[]` after a delete). -/
def HistoryStore := String → List ConversionRecord

/-- The empty history store. -/
def emptyHistoryStore : HistoryStore := fun _ => []

/-- The whole mutable server state: the cache and the history store. -/
structure ServerState where
  cache : CurrencyCache
  conversionHistoryStore : HistoryStore

/-- The history-append operation (lines 267–279): `unshift` the record onto
the user's list, then `slice(0, 20)`. -/
def appendConversion (store : HistoryStore) (userId : String) (record : ConversionRecord) :
    HistoryStore :=
  fun u => if u = userId then (record :: store userId).take 20 else store u

/-- `new Date()` spread over the body's `conversion` object. -/
def mkConversionRecord (conversion : ConversionData) (now : Nat) : ConversionRecord :=
  { userId := conversion.userId
    fromCurrency := conversion.fromCurrency
    toCurrency := conversion.toCurrency
    amount := conversion.amount
    result := conversion.result
    rate := conversion.rate
    timestamp := now }

/-- The `POST /api/history` handler: default the user id to `"anonymous"`,
build the record, append.  The response is always `{ success: true }`. -/
def historyAppendRoute (st : ServerState) (now : Nat) (userId : Option String)
    (conversion : ConversionData) : ServerState :=
  { st with
      conversionHistoryStore :=
        appendConversion st.conversionHistoryStore (userId.getD "anonymous")
          (mkConversionRecord conversion now) }

/-- A successful single conversion payload. -/
structure Conversion where
  fromCur : String
  toCur : String
  amount : JsNum
  rate : JsNum
  result : JsNum
deriving DecidableEq

/-- Outcome of the single-conversion route: the success payload, a
validation error (thrown by the handler's own checks), an upstream error
(rethrown by `updateCache`), or the TypeError a property read on a `null`
cache field would throw.  Express turns every thrown error into a
`{ success: false, error }` body with status 400. -/
inductive ConvertOutcome where
  | ok (c : Conversion)
  | validationErr (msg : String)
  | upstreamErr (msg : String)
  | typeErr
deriving DecidableEq

/-- Property read `usdRates[c]` guarded for a `null` table: reading a key
of `null` throws a TypeError; a present key yields its rate and a missing
key yields `undefined`, which arithmetic coerces to `NaN`. -/
def ratesRead : Option Rates → String → Except Unit JsNum
  | none, _ => .error ()
  | some rs, c => .ok (rateIndex rs c)

/-- `from === 'USD' ? 1 : (1 / usdRates[from])`. -/
def fromUsdFactor (rates : Option Rates) (fromCur : String) : Except Unit JsNum :=
  if fromCur = "USD" then .ok (.num 1)
  else (ratesRead rates fromCur).map (fun r => (JsNum.num 1).div r)

/-- `to === 'USD' ? 1 : usdRates[to]`. -/
def toUsdFactor (rates : Option Rates) (toCur : String) : Except Unit JsNum :=
  if toCur = "USD" then .ok (.num 1) else ratesRead rates toCur

/-- The `GET /api/convert/:from/:to/:amount` handler: parse and check the
amount, refresh the cache for base `"USD"`, check both codes against the
currency list, then compute `rate = fromToUsd * usdToTo` and
`result = amount * rate`. -/
def convertRoute (axiosCurrencies : Except String Currencies)
    (axiosRates : String → Except String Rates) (now : Nat) (st : ServerState)
    (fromCur toCur amountStr : String) : ConvertOutcome × ServerState :=
  let numericAmount := parseFloatStr amountStr
  if numericAmount.isNaN then (.validationErr "Amount must be a number", st)
  else
    match updateCache axiosCurrencies axiosRates now st.cache "USD" with
    | ⟨c1, some e⟩ => (.upstreamErr e, { st with cache := c1 })
    | ⟨c1, none⟩ =>
      let st1 := { st with cache := c1 }
      match c1.currencies with
      | none => (.typeErr, st1)
      | some curr =>
        if ¬ currenciesHas curr fromCur ∨ ¬ currenciesHas curr toCur then
          (.validationErr "Invalid currency code", st1)
        else
          match fromUsdFactor c1.rates fromCur, toUsdFactor c1.rates toCur with
          | .ok fromToUsd, .ok usdToTo =>
            let rate := fromToUsd.mul usdToTo
            (.ok ⟨fromCur, toCur, numericAmount, rate, numericAmount.mul rate⟩, st1)
          | _, _ => (.typeErr, st1)

/-- One entry of the bulk-conversion `results` object: a per-key error or
a per-key conversion. -/
inductive BulkEntry where
  | err (msg : String)
  | conv (amount rate result : JsNum)
deriving DecidableEq

/-- Outcome of the bulk-conversion route. -/
inductive BulkOutcome where
  | ok (fromCur : String) (results : List (String × BulkEntry))
  | validationErr (msg : String)
  | upstreamErr (msg : String)
  | typeErr
deriving DecidableEq

/-- One iteration of the bulk loop: invalid target code and unparsable
amount become per-key error entries; a valid pair is converted.  Reading
the rate table while it is `null` throws (aborting the whole request). -/
def bulkItem (curr : Currencies) (rates : Option Rates) (fromToUsd : JsNum)
    (currency : String) (amount : JsVal) : Except Unit BulkEntry :=
  if ¬ currenciesHas curr currency then .ok (.err "Invalid currency code")
  else
    let numericAmount := parseFloatVal amount
    if numericAmount.isNaN then .ok (.err "Amount must be a number")
    else
      (toUsdFactor rates currency).map (fun usdToCurrency =>
        let rate := fromToUsd.mul usdToCurrency
        .conv numericAmount rate (numericAmount.mul rate))

/-- The bulk loop over `Object.entries(amounts)`, in order. -/
def bulkResults (curr : Currencies) (rates : Option Rates) (fromToUsd : JsNum) :
    List (String × JsVal) → Except Unit (List (String × BulkEntry))
  | [] => .ok []
  | (c, a) :: rest => do
      let e ← bulkItem curr rates fromToUsd c a
      let tail ← bulkResults curr rates fromToUsd rest
      .ok ((c, e) :: tail)

/-- The `POST /api/convert/bulk` handler.  The body-format guard
`!from || !amounts || typeof amounts !== 'object'` reduces, over the typed
body `(from, amounts)`, to `from` being the empty (falsy) string.  Then:
refresh for base `"USD"`, validate `from` once up front, compute the pivot
factor once, and process every entry of `amounts`. -/
def bulkConvertRoute (axiosCurrencies : Except String Currencies)
    (axiosRates : String → Except String Rates) (now : Nat) (st : ServerState)
    (fromCur : String) (amounts : List (String × JsVal)) : BulkOutcome × ServerState :=
  if fromCur = "" then
    (.validationErr "Invalid request format. Expected \x7b from: \"CUR\", amounts: \x7b \"CUR\": amount \x7d \x7d", st)
  else
    match updateCache axiosCurrencies axiosRates now st.cache "USD" with
    | ⟨c1, some e⟩ => (.upstreamErr e, { st with cache := c1 })
    | ⟨c1, none⟩ =>
      let st1 := { st with cache := c1 }
      match c1.currencies with
      | none => (.typeErr, st1)
      | some curr =>
        if ¬ currenciesHas curr fromCur then
          (.validationErr ("Invalid source currency: " ++ fromCur), st1)
        else
          match fromUsdFactor c1.rates fromCur with
          | .error _ => (.typeErr, st1)
          | .ok fromToUsd =>
            match bulkResults curr c1.rates fromToUsd amounts with
            | .error _ => (.typeErr, st1)
            | .ok results => (.ok fromCur results, st1)

/-- Context of one caller of `updateCache` in the interleaving model: the
base it requests, the `Date.now()` it captured on entry, and the payloads
its upstream fetches return. -/
structure CallerCtx where
  base : String
  now : Nat
  currencies : Currencies
  rates : Rates
deriving DecidableEq

/-- One upstream refresh operation issued by a caller: who started it, for
which base, and whether it is a full refresh (`Promise.all` of the currency
list and the rate table) or a rates-only fetch. -/
structure RefreshOp where
  owner : Bool
  base : String
  full : Bool
deriving DecidableEq

/-- Where a caller is inside its `updateCache` call: before its check,
suspended on its fetch (full or rates-only), or done. -/
inductive CallerPhase where
  | ready
  | awaitingFull
  | awaitingRates
  | finished
deriving DecidableEq

/-- Global state of the interleaving model: the value of the live shared
cache object together with its identity (a counter the cold-path
`currencyCache = { ... }` assignment bumps, since it binds a brand-new
object to the variable), the log of refresh operations issued so far, each
caller's phase, the operation it is awaiting, and the object reference its
pending `currencyCache.rates = await ...` assignment captured before
suspending (if any). -/
structure ConcState where
  cache : CurrencyCache
  cacheId : Nat
  issued : List RefreshOp
  phase0 : CallerPhase
  phase1 : CallerPhase
  awaited0 : Option RefreshOp
  awaited1 : Option RefreshOp
  captured0 : Option Nat
  captured1 : Option Nat
deriving DecidableEq

/-- Initial interleaving state over a given cache. -/
def initConcState (cache : CurrencyCache) : ConcState :=
  { cache := cache, cacheId := 0, issued := [], phase0 := .ready, phase1 := .ready,
    awaited0 := none, awaited1 := none, captured0 := none, captured1 := none }

/-- The phase of caller `tid`. -/
def ConcState.phase (s : ConcState) (tid : Bool) : CallerPhase :=
  if tid then s.phase1 else s.phase0

/-- The object reference captured by caller `tid`'s pending rates write. -/
def ConcState.captured (s : ConcState) (tid : Bool) : Option Nat :=
  if tid then s.captured1 else s.captured0

/-- Replace the phase, awaited operation and captured reference of caller
`tid`. -/
def ConcState.setPhase (s : ConcState) (tid : Bool) (p : CallerPhase)
    (aw : Option RefreshOp) (cap : Option Nat) : ConcState :=
  if tid then { s with phase1 := p, awaited1 := aw, captured1 := cap }
  else { s with phase0 := p, awaited0 := aw, captured0 := cap }

/-- The check step of `updateCache`: evaluated synchronously (no suspension
point), it decides the branch against the current cache and starts the
branch's fetch.  In the wrong-base branch, the assignment
`currencyCache.rates = await fetchAllRates(baseCurrency)` evaluates its
left-hand reference before evaluating the `await`ed right-hand side, so
the identity of the current cache object is captured here. -/
def concCheck (ctx : CallerCtx) (tid : Bool) (s : ConcState) : ConcState :=
  if cacheExpired ctx.now s.cache then
    let op : RefreshOp := ⟨tid, ctx.base, true⟩
    { s.setPhase tid .awaitingFull (some op) none with issued := s.issued ++ [op] }
  else if s.cache.baseCurrency ≠ some ctx.base then
    let op : RefreshOp := ⟨tid, ctx.base, false⟩
    { s.setPhase tid .awaitingRates (some op) (some s.cacheId) with
        issued := s.issued ++ [op] }
  else s.setPhase tid .finished none none

/-- The snapshot a completed full refresh installs. -/
def fullSnapshot (ctx : CallerCtx) : CurrencyCache :=
  { currencies := some ctx.currencies, rates := some ctx.rates,
    baseCurrency := some ctx.base, lastUpdated := some ctx.now }

/-- The resumption step after the fetch resolves; the writes up to the end
of the function run to completion as one step.  A full refresh assigns a
whole new object to the `currencyCache` variable (fresh identity).  A
rates-only refresh writes `rates` through the object reference captured
before its `await`, while the subsequent `currencyCache.baseCurrency = ...`
and `currencyCache.lastUpdated = ...` re-evaluate the variable: if a
concurrent full refresh replaced the object in between, the rates write
lands on the dead captured object and only `baseCurrency` and
`lastUpdated` reach the live snapshot. -/
def concResume (ctx : CallerCtx) (tid : Bool) (s : ConcState) : ConcState :=
  match s.phase tid with
  | .awaitingFull =>
      { s.setPhase tid .finished none none with
          cache := fullSnapshot ctx
          cacheId := s.cacheId + 1 }
  | .awaitingRates =>
      if s.captured tid = some s.cacheId then
        { s.setPhase tid .finished none none with
            cache := { s.cache with
                        rates := some ctx.rates
                        baseCurrency := some ctx.base
                        lastUpdated := some ctx.now } }
      else
        { s.setPhase tid .finished none none with
            cache := { s.cache with
                        baseCurrency := some ctx.base
                        lastUpdated := some ctx.now } }
  | _ => s

/-- One scheduler step: run the next enabled step of caller `tid`. -/
def concStep (ctx0 ctx1 : CallerCtx) (tid : Bool) (s : ConcState) : ConcState :=
  let ctx := if tid then ctx1 else ctx0
  match s.phase tid with
  | .ready => concCheck ctx tid s
  | .awaitingFull => concResume ctx tid s
  | .awaitingRates => concResume ctx tid s
  | .finished => s

/-- Run a schedule (a list of caller choices) from a state. -/
def runSched (ctx0 ctx1 : CallerCtx) (sched : List Bool) (s : ConcState) : ConcState :=
  sched.foldl (fun st t => concStep ctx0 ctx1 t st) s

/-- Number of refresh operations currently in flight. -/
def inFlight (s : ConcState) : Nat :=
  (if s.phase0 = .awaitingFull ∨ s.phase0 = .awaitingRates then 1 else 0) +
    (if s.phase1 = .awaitingFull ∨ s.phase1 = .awaitingRates then 1 else 0)

/-- Multiplying by `NaN` yields `NaN`. -/
theorem JsNum.mul_nan (x : JsNum) : x.mul .nan = .nan := by
  cases x <;> rfl

/-- Multiplying `NaN` by anything yields `NaN`. -/
theorem JsNum.nan_mul (x : JsNum) : JsNum.nan.mul x = .nan := by
  cases x <;> rfl

/-- Multiplying by the exact `1` is the identity. -/
theorem JsNum.mul_one (x : JsNum) : x.mul (.num 1) = x := by
  cases x <;> simp [JsNum.mul]

/-- A successful `updateCache(base)` always leaves `baseCurrency = base`
(every success path either installs `base` or found it already there). -/
theorem updateCache_ok_baseCurrency (axC : Except String Currencies)
    (axR : String → Except String Rates) (now : Nat) (cache : CurrencyCache)
    (base : String) (c1 : CurrencyCache)
    (h : updateCache axC axR now cache base = ⟨c1, none⟩) :
    c1.baseCurrency = some base := by
  cases hexp : cacheExpired now cache with
  | true =>
      cases hc : fetchAllCurrencies axC with
      | error e => simp [updateCache, hexp, hc] at h
      | ok cs =>
          cases hr : fetchAllRates axR base with
          | error e => simp [updateCache, hexp, hc, hr] at h
          | ok rs =>
              simp [updateCache, hexp, hc, hr] at h
              subst h
              rfl
  | false =>
      by_cases hne : cache.baseCurrency = some base
      · simp [updateCache, hexp, hne] at h
        subst h
        exact hne
      · cases hr : fetchAllRates axR base with
        | error e => simp [updateCache, hexp, hne, hr] at h
        | ok rs =>
            simp [updateCache, hexp, hne, hr] at h
            subst h
            rfl

/-- A demonstration currency-list fetch payload. -/
def demoAxiosCurrencies : Except String Currencies :=
  .ok ["USD", "EUR", "JPY"]

/-- A demonstration rate-table fetch payload. -/
def demoAxiosRates : String → Except String Rates :=
  fun _ => .ok [("EUR", (2 : ℚ)), ("JPY", 150)]

/-- A snapshot as the demonstration fetches populate it at time 1000. -/
def demoFreshCache : CurrencyCache :=
  { currencies := some ["USD", "EUR", "JPY"]
    rates := some [("EUR", (2 : ℚ)), ("JPY", 150)]
    baseCurrency := some "USD"
    lastUpdated := some 1000 }

/-- Claim C1: one `updateCache(requestedBase)` call behaves by cases —
cold/expired: both the currency list and the rate table are fetched and
the whole snapshot is replaced by one built entirely from this fetch
generation; fresh but wrong base: only the rate table is fetched and
`rates`, `baseCurrency`, `lastUpdated` are updated with the currency list
untouched; fresh and matching: nothing is fetched (the result does not
even depend on the fetch oracles) and the cache is returned unchanged. -/
theorem updateCache_freshness_cases (axC : Except String Currencies)
    (axR : String → Except String Rates) (now : Nat) (cache : CurrencyCache)
    (base : String) :
    (cacheExpired now cache = true →
      ∀ cs rs, fetchAllCurrencies axC = .ok cs → fetchAllRates axR base = .ok rs →
        updateCache axC axR now cache base =
          ⟨{ currencies := some cs, rates := some rs, baseCurrency := some base,
             lastUpdated := some now }, none⟩) ∧
    (cacheExpired now cache = false → cache.baseCurrency ≠ some base →
      ∀ rs, fetchAllRates axR base = .ok rs →
        updateCache axC axR now cache base =
          ⟨{ cache with
              rates := some rs
              baseCurrency := some base
              lastUpdated := some now }, none⟩) ∧
    (cacheExpired now cache = false → cache.baseCurrency = some base →
      updateCache axC axR now cache base = ⟨cache, none⟩ ∧
        ∀ axC2 axR2, updateCache axC2 axR2 now cache base = ⟨cache, none⟩) := by
  refine ⟨?_, ?_, ?_⟩
  · intro hexp cs rs hc hr
    simp [updateCache, hexp, hc, hr]
  · intro hexp hne rs hr
    simp [updateCache, hexp, hne, hr]
  · intro hexp heq
    constructor
    · simp [updateCache, hexp, heq]
    · intro axC2 axR2
      simp [updateCache, hexp, heq]

/-- Concrete instances of all three cases of `updateCache_freshness_cases`. -/
theorem updateCache_freshness_cases_witness :
    updateCache demoAxiosCurrencies demoAxiosRates 1000 initialCurrencyCache "USD" =
      ⟨{ currencies := some ["USD", "EUR", "JPY"],
         rates := some [("EUR", (2 : ℚ)), ("JPY", 150)],
         baseCurrency := some "USD", lastUpdated := some 1000 }, none⟩ ∧
    updateCache demoAxiosCurrencies demoAxiosRates 2000 demoFreshCache "EUR" =
      ⟨{ currencies := some ["USD", "EUR", "JPY"],
         rates := some [("EUR", (2 : ℚ)), ("JPY", 150)],
         baseCurrency := some "EUR", lastUpdated := some 2000 }, none⟩ ∧
    updateCache demoAxiosCurrencies demoAxiosRates 2000 demoFreshCache "USD" =
      ⟨demoFreshCache, none⟩ :=
  ⟨(updateCache_freshness_cases _ _ _ _ _).1 (by decide) _ _ rfl rfl,
   (updateCache_freshness_cases _ _ _ _ _).2.1 (by decide) (by decide) _ rfl,
   ((updateCache_freshness_cases _ _ _ _ _).2.2 (by decide) rfl).1⟩

/-- Claim C3: when the upstream fetch of a refresh attempt fails, the
returned error is surfaced and the cache value carried out of the attempt
is exactly the previous one (all four fields). -/
theorem updateCache_failure_frame (axC : Except String Currencies)
    (axR : String → Except String Rates) (now : Nat) (cache : CurrencyCache)
    (base : String) :
    (∀ e, (updateCache axC axR now cache base).error = some e →
      (updateCache axC axR now cache base).cache = cache) ∧
    (cacheExpired now cache = true →
      ((∃ e, fetchAllCurrencies axC = .error e) ∨
        (∃ e, fetchAllRates axR base = .error e)) →
      ∃ e, (updateCache axC axR now cache base).error = some e) ∧
    (cacheExpired now cache = false → cache.baseCurrency ≠ some base →
      (∃ e, fetchAllRates axR base = .error e) →
      ∃ e, (updateCache axC axR now cache base).error = some e) := by
  refine ⟨?_, ?_, ?_⟩
  · intro e he
    cases hexp : cacheExpired now cache with
    | true =>
        cases hc : fetchAllCurrencies axC <;> cases hr : fetchAllRates axR base <;>
          simp [updateCache, hexp, hc, hr] at he ⊢
    | false =>
        by_cases hne : cache.baseCurrency = some base
        · simp [updateCache, hexp, hne] at he
        · cases hr : fetchAllRates axR base <;>
            simp [updateCache, hexp, hne, hr] at he ⊢
  · intro hexp hfail
    rcases hfail with ⟨e, hc⟩ | ⟨e, hr⟩
    · exact ⟨e, by cases hr : fetchAllRates axR base <;> simp [updateCache, hexp, hc, hr]⟩
    · cases hc : fetchAllCurrencies axC with
      | error e2 => exact ⟨e2, by simp [updateCache, hexp, hc]⟩
      | ok cs => exact ⟨e, by simp [updateCache, hexp, hc, hr]⟩
  · intro hexp hne hfail
    rcases hfail with ⟨e, hr⟩
    exact ⟨e, by simp [updateCache, hexp, hne, hr]⟩

/-- Concrete instance of `updateCache_failure_frame`: an expired snapshot,
a failing provider, the error surfaced and the snapshot untouched. -/
theorem updateCache_failure_frame_witness :
    (updateCache (Except.error "boom") demoAxiosRates 500000 demoFreshCache "USD").error =
      some "Failed to fetch currency list" ∧
    (updateCache (Except.error "boom") demoAxiosRates 500000 demoFreshCache "USD").cache =
      demoFreshCache :=
  ⟨rfl,
   (updateCache_failure_frame (Except.error "boom") demoAxiosRates 500000 demoFreshCache
      "USD").1 "Failed to fetch currency list" rfl⟩

/-- Claim C7: a refresh taken because a fresh snapshot has the wrong base
re-fetches only the rate table — the result does not depend on the
currency-list oracle at all — and the currencies mapping after the
operation is exactly the one from before it. -/
theorem wrong_base_preserves_currencies (axC : Except String Currencies)
    (axR : String → Except String Rates) (now : Nat) (cache : CurrencyCache)
    (base : String) (hexp : cacheExpired now cache = false)
    (hne : cache.baseCurrency ≠ some base) :
    (updateCache axC axR now cache base).cache.currencies = cache.currencies ∧
    ∀ axC2, updateCache axC2 axR now cache base = updateCache axC axR now cache base := by
  constructor
  · cases hr : fetchAllRates axR base <;> simp [updateCache, hexp, hne, hr]
  · intro axC2
    simp [updateCache, hexp, hne]

/-- Concrete instance of `wrong_base_preserves_currencies`: switching the
base from USD to EUR on a fresh snapshot keeps the currency list. -/
theorem wrong_base_preserves_currencies_witness :
    (updateCache demoAxiosCurrencies demoAxiosRates 2000 demoFreshCache "EUR").cache.currencies =
      demoFreshCache.currencies ∧
    ∀ axC2, updateCache axC2 demoAxiosRates 2000 demoFreshCache "EUR" =
      updateCache demoAxiosCurrencies demoAxiosRates 2000 demoFreshCache "EUR" :=
  wrong_base_preserves_currencies demoAxiosCurrencies demoAxiosRates 2000 demoFreshCache
    "EUR" (by decide) (by decide)

/-- Modelled from the spec: `fromToBase = (from == baseCurrency) ? 1 : 1 / rates[from]`,
stated against an arbitrary base currency `B` (the code hard-codes `'USD'`,
which a successful refresh makes the snapshot's base). -/
def fromToBaseSpec (B : String) (rs : Rates) (c : String) : JsNum :=
  if c = B then .num 1 else (JsNum.num 1).div (rateIndex rs c)

/-- Modelled from the spec: `baseToTo = (to == baseCurrency) ? 1 : rates[to]`. -/
def baseToToSpec (B : String) (rs : Rates) (c : String) : JsNum :=
  if c = B then .num 1 else rateIndex rs c

/-- The demonstration rate table as a value. -/
def demoRatesList : Rates := [("EUR", (2 : ℚ)), ("JPY", 150)]

/-- Claim C2: a successful single conversion returns
`rate = fromToBase * baseToTo` computed against the snapshot's own base
currency `B` (which a successful `updateCache('USD')` makes `"USD"`), and
`result = amount * rate`. -/
theorem convert_pivot_formula (axC : Except String Currencies)
    (axR : String → Except String Rates) (now : Nat) (st : ServerState)
    (fromCur toCur amountStr : String) (c1 : CurrencyCache) (curr : Currencies)
    (rs : Rates) (B : String)
    (hupd : updateCache axC axR now st.cache "USD" = ⟨c1, none⟩)
    (hcurr : c1.currencies = some curr) (hrs : c1.rates = some rs)
    (hbase : c1.baseCurrency = some B)
    (hnan : (parseFloatStr amountStr).isNaN = false)
    (hfrom : currenciesHas curr fromCur = true)
    (hto : currenciesHas curr toCur = true) :
    (convertRoute axC axR now st fromCur toCur amountStr).1 =
      .ok ⟨fromCur, toCur, parseFloatStr amountStr,
        (fromToBaseSpec B rs fromCur).mul (baseToToSpec B rs toCur),
        (parseFloatStr amountStr).mul
          ((fromToBaseSpec B rs fromCur).mul (baseToToSpec B rs toCur))⟩ := by
  have hB : B = "USD" := by
    have h2 := updateCache_ok_baseCurrency axC axR now st.cache "USD" c1 hupd
    rw [hbase] at h2
    exact Option.some_injective _ h2
  subst hB
  by_cases hf : fromCur = "USD"
  · subst hf
    by_cases ht : toCur = "USD"
    · subst ht
      simp [convertRoute, hnan, hupd, hcurr, hfrom, hto, fromUsdFactor, toUsdFactor,
        ratesRead, hrs, Except.map, fromToBaseSpec, baseToToSpec]
    · simp [convertRoute, hnan, hupd, hcurr, hfrom, hto, fromUsdFactor, toUsdFactor,
        ratesRead, hrs, Except.map, fromToBaseSpec, baseToToSpec, ht]
  · by_cases ht : toCur = "USD"
    · subst ht
      simp [convertRoute, hnan, hupd, hcurr, hfrom, hto, fromUsdFactor, toUsdFactor,
        ratesRead, hrs, Except.map, fromToBaseSpec, baseToToSpec, hf]
    · simp [convertRoute, hnan, hupd, hcurr, hfrom, hto, fromUsdFactor, toUsdFactor,
        ratesRead, hrs, Except.map, fromToBaseSpec, baseToToSpec, hf, ht]

/-- Concrete instance of `convert_pivot_formula`, with the cross rate also
evaluated: EUR→JPY through USD at rates EUR=2, JPY=150 is `(1/2) * 150 = 75`. -/
theorem convert_pivot_formula_witness :
    (convertRoute demoAxiosCurrencies demoAxiosRates 2000
        ⟨demoFreshCache, emptyHistoryStore⟩ "EUR" "JPY" "10").1 =
      .ok ⟨"EUR", "JPY", parseFloatStr "10",
        (fromToBaseSpec "USD" demoRatesList "EUR").mul (baseToToSpec "USD" demoRatesList "JPY"),
        (parseFloatStr "10").mul
          ((fromToBaseSpec "USD" demoRatesList "EUR").mul
            (baseToToSpec "USD" demoRatesList "JPY"))⟩ ∧
    (fromToBaseSpec "USD" demoRatesList "EUR").mul (baseToToSpec "USD" demoRatesList "JPY") =
      .num 75 ∧
    (parseFloatStr "10").isNaN = false :=
  ⟨convert_pivot_formula demoAxiosCurrencies demoAxiosRates 2000
      ⟨demoFreshCache, emptyHistoryStore⟩ "EUR" "JPY" "10" demoFreshCache
      ["USD", "EUR", "JPY"] demoRatesList "USD" (by decide) rfl rfl rfl rfl
      (by decide) (by decide),
   by
     show JsNum.num ((1 : ℚ) / 2 * 150) = JsNum.num 75
     norm_num,
   rfl⟩

/-- The `(rate, result)` pair of a successful conversion outcome. -/
def outcomeParts : ConvertOutcome → Option (JsNum × JsNum)
  | .ok c => some (c.rate, c.result)
  | _ => none

/-- A snapshot whose currency list contains a code (`"ABC"`) that the rate
table lacks. -/
def missingRateCache : CurrencyCache :=
  { currencies := some ["USD", "ABC"]
    rates := some []
    baseCurrency := some "USD"
    lastUpdated := some 1 }

/-- Counterexample to claim C5: `"ABC"` is a valid code (a key of the
snapshot's currencies) and the amount `1` is finite, yet
`convert("ABC","ABC",1)` returns `rate = NaN`, not exactly `1` — the code
divides by the undefined `rates["ABC"]`. -/
theorem identity_rate_missing_entry_cex :
    currenciesHas ["USD", "ABC"] "ABC" = true ∧
    (parseFloatStr "1").isNaN = false ∧
    outcomeParts
        (convertRoute demoAxiosCurrencies demoAxiosRates 2
          ⟨missingRateCache, emptyHistoryStore⟩ "ABC" "ABC" "1").1 =
      some (JsNum.nan, JsNum.nan) ∧
    JsNum.nan ≠ JsNum.num 1 := by
  decide

/-- Claim C5 as amended: `convert(X, X, a)` returns `rate` exactly `1` and
`result` exactly the parsed amount when `X` is the snapshot's base currency
— both pivot factors are then the literal `1`, and multiplication by an
exact `1` is exact in binary64 as well, so this case is faithful to the
program's arithmetic.  For any other valid `X` the handler performs no
`from == to` short-circuit: it returns, as the rate, the computed product
`(1 / rates[X]) * rates[X]` — `NaN` when the rates entry is missing (see
the counterexample), and not guaranteed by the code to be exactly `1`
under the program's binary64 rounding (for example `rates[X] = 49` yields
`0.9999999999999999` there), which is why no exact identity is asserted
for this case. -/
theorem identity_conversion_amended (axC : Except String Currencies)
    (axR : String → Except String Rates) (now : Nat) (st : ServerState)
    (X amountStr : String) (c1 : CurrencyCache) (curr : Currencies) (rs : Rates)
    (hupd : updateCache axC axR now st.cache "USD" = ⟨c1, none⟩)
    (hcurr : c1.currencies = some curr) (hrs : c1.rates = some rs)
    (hnan : (parseFloatStr amountStr).isNaN = false)
    (hX : currenciesHas curr X = true) :
    (X = "USD" →
      (convertRoute axC axR now st X X amountStr).1 =
        .ok ⟨X, X, parseFloatStr amountStr, JsNum.num 1, parseFloatStr amountStr⟩) ∧
    (X ≠ "USD" →
      (convertRoute axC axR now st X X amountStr).1 =
        .ok ⟨X, X, parseFloatStr amountStr,
          ((JsNum.num 1).div (rateIndex rs X)).mul (rateIndex rs X),
          (parseFloatStr amountStr).mul
            (((JsNum.num 1).div (rateIndex rs X)).mul (rateIndex rs X))⟩) := by
  constructor
  · intro hU
    subst hU
    have hone : (JsNum.num 1).mul (.num 1) = .num 1 := JsNum.mul_one _
    simp [convertRoute, hnan, hupd, hcurr, hX, fromUsdFactor, toUsdFactor,
      Except.map, hone, JsNum.mul_one]
  · intro hU
    simp [convertRoute, hnan, hupd, hcurr, hX, hU, fromUsdFactor, toUsdFactor,
      ratesRead, hrs, Except.map]

/-- Concrete instances of `identity_conversion_amended`: USD→USD (the
snapshot's base) gives rate exactly 1 and result the parsed amount;
EUR→EUR returns the computed, un-short-circuited product `(1/2) * 2` as
its rate. -/
theorem identity_conversion_amended_witness :
    (convertRoute demoAxiosCurrencies demoAxiosRates 2000
        ⟨demoFreshCache, emptyHistoryStore⟩ "USD" "USD" "10").1 =
      .ok ⟨"USD", "USD", parseFloatStr "10", JsNum.num 1, parseFloatStr "10"⟩ ∧
    (convertRoute demoAxiosCurrencies demoAxiosRates 2000
        ⟨demoFreshCache, emptyHistoryStore⟩ "EUR" "EUR" "10").1 =
      .ok ⟨"EUR", "EUR", parseFloatStr "10",
        ((JsNum.num 1).div (rateIndex demoRatesList "EUR")).mul
          (rateIndex demoRatesList "EUR"),
        (parseFloatStr "10").mul
          (((JsNum.num 1).div (rateIndex demoRatesList "EUR")).mul
            (rateIndex demoRatesList "EUR"))⟩ :=
  ⟨(identity_conversion_amended demoAxiosCurrencies demoAxiosRates 2000
      ⟨demoFreshCache, emptyHistoryStore⟩ "USD" "10" demoFreshCache
      ["USD", "EUR", "JPY"] demoRatesList (by decide) rfl rfl rfl (by decide)).1 rfl,
   (identity_conversion_amended demoAxiosCurrencies demoAxiosRates 2000
      ⟨demoFreshCache, emptyHistoryStore⟩ "EUR" "10" demoFreshCache
      ["USD", "EUR", "JPY"] demoRatesList (by decide) rfl rfl rfl (by decide)).2
      (by decide)⟩

/-- Claim C10: a code that is a key of `currencies` but absent from `rates`
is not rejected — the conversion succeeds with `rate = NaN` and
`result = NaN` (division by / multiplication with the undefined rate). -/
theorem missing_rate_nan_success (axC : Except String Currencies)
    (axR : String → Except String Rates) (now : Nat) (st : ServerState)
    (fromCur toCur amountStr : String) (c1 : CurrencyCache) (curr : Currencies)
    (rs : Rates)
    (hupd : updateCache axC axR now st.cache "USD" = ⟨c1, none⟩)
    (hcurr : c1.currencies = some curr) (hrs : c1.rates = some rs)
    (hnan : (parseFloatStr amountStr).isNaN = false)
    (hfrom : currenciesHas curr fromCur = true)
    (hto : currenciesHas curr toCur = true)
    (hmiss : (List.lookup fromCur rs = none ∧ fromCur ≠ "USD") ∨
      (List.lookup toCur rs = none ∧ toCur ≠ "USD")) :
    (convertRoute axC axR now st fromCur toCur amountStr).1 =
      .ok ⟨fromCur, toCur, parseFloatStr amountStr, JsNum.nan, JsNum.nan⟩ := by
  rcases hmiss with ⟨hm, hu⟩ | ⟨hm, hu⟩
  · by_cases ht : toCur = "USD"
    · subst ht
      simp [convertRoute, hnan, hupd, hcurr, hfrom, hto, fromUsdFactor, toUsdFactor,
        ratesRead, hrs, rateIndex, hm, hu, Except.map, JsNum.div,
        JsNum.nan_mul, JsNum.mul_nan]
    · simp [convertRoute, hnan, hupd, hcurr, hfrom, hto, fromUsdFactor, toUsdFactor,
        ratesRead, hrs, rateIndex, hm, hu, ht, Except.map, JsNum.div,
        JsNum.nan_mul, JsNum.mul_nan]
  · by_cases hf : fromCur = "USD"
    · subst hf
      simp [convertRoute, hnan, hupd, hcurr, hfrom, hto, fromUsdFactor, toUsdFactor,
        ratesRead, hrs, rateIndex, hm, hu, Except.map, JsNum.div,
        JsNum.nan_mul, JsNum.mul_nan]
    · simp [convertRoute, hnan, hupd, hcurr, hfrom, hto, fromUsdFactor, toUsdFactor,
        ratesRead, hrs, rateIndex, hm, hu, hf, Except.map, JsNum.div,
        JsNum.nan_mul, JsNum.mul_nan]

/-- Concrete instance of `missing_rate_nan_success`: converting from the
rate-less `"ABC"` to `"USD"` succeeds with a `NaN` rate and result. -/
theorem missing_rate_nan_success_witness :
    (convertRoute demoAxiosCurrencies demoAxiosRates 2
        ⟨missingRateCache, emptyHistoryStore⟩ "ABC" "USD" "2.5").1 =
      .ok ⟨"ABC", "USD", parseFloatStr "2.5", JsNum.nan, JsNum.nan⟩ :=
  missing_rate_nan_success demoAxiosCurrencies demoAxiosRates 2
    ⟨missingRateCache, emptyHistoryStore⟩ "ABC" "USD" "2.5" missingRateCache
    ["USD", "ABC"] [] (by decide) rfl rfl rfl (by decide) (by decide)
    (Or.inl ⟨rfl, by decide⟩)

/-- Whether an outcome is a validation failure (a check the handler itself
threw, surfaced as a 400 client-input error). -/
def isValidationError : ConvertOutcome → Bool
  | .validationErr _ => true
  | _ => false

/-- The amount of a successful conversion outcome. -/
def outcomeAmount : ConvertOutcome → Option JsNum
  | .ok c => some c.amount
  | _ => none

/-- Counterexample to claim C6: the amount string `"Infinity"` parses to
the non-finite `Infinity`, yet the conversion is not rejected — it succeeds
and carries the infinite amount (the code only checks `isNaN`, not
finiteness). -/
theorem nonfinite_amount_accepted_cex :
    parseFloatStr "Infinity" = JsNum.posInf ∧
    isValidationError
        (convertRoute demoAxiosCurrencies demoAxiosRates 2000
          ⟨demoFreshCache, emptyHistoryStore⟩ "USD" "USD" "Infinity").1 = false ∧
    outcomeAmount
        (convertRoute demoAxiosCurrencies demoAxiosRates 2000
          ⟨demoFreshCache, emptyHistoryStore⟩ "USD" "USD" "Infinity").1 =
      some JsNum.posInf := by
  decide

/-- Claim C6 as amended: a single conversion fails with a validation error
iff `parseFloat(amount)` is `NaN` (so non-finite parsed amounts such as
`Infinity` are accepted) or `from` or `to` is not a key of the refreshed
snapshot's currencies; an amount validation error leaves the whole state
untouched, the history store is never touched, and the only cache change a
conversion can make is the freshness refresh performed before code
validation. -/
theorem validation_error_characterization (axC : Except String Currencies)
    (axR : String → Except String Rates) (now : Nat) (st : ServerState)
    (fromCur toCur amountStr : String) (c1 : CurrencyCache) (curr : Currencies)
    (hupd : updateCache axC axR now st.cache "USD" = ⟨c1, none⟩)
    (hcurr : c1.currencies = some curr) :
    ((∃ m, (convertRoute axC axR now st fromCur toCur amountStr).1 = .validationErr m) ↔
      ((parseFloatStr amountStr).isNaN = true ∨ currenciesHas curr fromCur = false ∨
        currenciesHas curr toCur = false)) ∧
    ((parseFloatStr amountStr).isNaN = true →
      (convertRoute axC axR now st fromCur toCur amountStr).2 = st) ∧
    (convertRoute axC axR now st fromCur toCur amountStr).2.conversionHistoryStore =
      st.conversionHistoryStore ∧
    ((convertRoute axC axR now st fromCur toCur amountStr).2 = st ∨
      (convertRoute axC axR now st fromCur toCur amountStr).2.cache = c1) := by
  cases hnan : (parseFloatStr amountStr).isNaN with
  | true => simp [convertRoute, hnan]
  | false =>
      by_cases hf : currenciesHas curr fromCur = true
      · by_cases ht : currenciesHas curr toCur = true
        · rcases hff : fromUsdFactor c1.rates fromCur with x | u <;>
            rcases htt : toUsdFactor c1.rates toCur with x2 | u2 <;>
              simp [convertRoute, hnan, hupd, hcurr, hf, ht, hff, htt]
        · simp [Bool.not_eq_true] at ht
          simp [convertRoute, hnan, hupd, hcurr, hf, ht]
      · simp [Bool.not_eq_true] at hf
        simp [convertRoute, hnan, hupd, hcurr, hf]

/-- Concrete instance of `validation_error_characterization`: an invalid
target code makes the conversion a validation error while a parsable
amount alone does not, the history store is untouched and the cache change
is at most the refresh. -/
theorem validation_error_characterization_witness :
    ((∃ m, (convertRoute demoAxiosCurrencies demoAxiosRates 2000
          ⟨demoFreshCache, emptyHistoryStore⟩ "EUR" "ZZZ" "10").1 = .validationErr m) ↔
      ((parseFloatStr "10").isNaN = true ∨
        currenciesHas ["USD", "EUR", "JPY"] "EUR" = false ∨
        currenciesHas ["USD", "EUR", "JPY"] "ZZZ" = false)) ∧
    ((parseFloatStr "10").isNaN = true →
      (convertRoute demoAxiosCurrencies demoAxiosRates 2000
          ⟨demoFreshCache, emptyHistoryStore⟩ "EUR" "ZZZ" "10").2 =
        ⟨demoFreshCache, emptyHistoryStore⟩) ∧
    (convertRoute demoAxiosCurrencies demoAxiosRates 2000
        ⟨demoFreshCache, emptyHistoryStore⟩ "EUR" "ZZZ" "10").2.conversionHistoryStore =
      emptyHistoryStore ∧
    ((convertRoute demoAxiosCurrencies demoAxiosRates 2000
        ⟨demoFreshCache, emptyHistoryStore⟩ "EUR" "ZZZ" "10").2 =
        ⟨demoFreshCache, emptyHistoryStore⟩ ∨
      (convertRoute demoAxiosCurrencies demoAxiosRates 2000
        ⟨demoFreshCache, emptyHistoryStore⟩ "EUR" "ZZZ" "10").2.cache = demoFreshCache) :=
  validation_error_characterization demoAxiosCurrencies demoAxiosRates 2000
    ⟨demoFreshCache, emptyHistoryStore⟩ "EUR" "ZZZ" "10" demoFreshCache
    ["USD", "EUR", "JPY"] (by decide) rfl

/-- The per-key outcome of the bulk loop when the rate table is present:
invalid code → error entry, unparsable amount → error entry, otherwise a
conversion through the pivot factor. -/
def bulkItemSpecFn (curr : Currencies) (rs : Rates) (fromToUsd : JsNum)
    (c : String) (a : JsVal) : BulkEntry :=
  if ¬ currenciesHas curr c then .err "Invalid currency code"
  else if (parseFloatVal a).isNaN then .err "Amount must be a number"
  else
    .conv (parseFloatVal a) (fromToUsd.mul (baseToToSpec "USD" rs c))
      ((parseFloatVal a).mul (fromToUsd.mul (baseToToSpec "USD" rs c)))

/-- With a present rate table, one bulk iteration never throws and computes
the per-key outcome. -/
theorem bulkItem_some_rates (curr : Currencies) (rs : Rates) (f : JsNum)
    (c : String) (a : JsVal) :
    bulkItem curr (some rs) f c a = .ok (bulkItemSpecFn curr rs f c a) := by
  simp only [bulkItem, bulkItemSpecFn, toUsdFactor, ratesRead, baseToToSpec]
  split_ifs <;> simp [Except.map]

/-- With a present rate table, the bulk loop processes every entry of
`amounts`, in order, to its per-key outcome. -/
theorem bulkResults_some_rates (curr : Currencies) (rs : Rates) (f : JsNum)
    (amounts : List (String × JsVal)) :
    bulkResults curr (some rs) f amounts =
      .ok (amounts.map (fun p => (p.1, bulkItemSpecFn curr rs f p.1 p.2))) := by
  induction amounts with
  | nil => simp [bulkResults]
  | cons p rest ih =>
      obtain ⟨c, a⟩ := p
      simp only [bulkResults, bulkItem_some_rates, ih, List.map_cons]
      rfl

/-- With a present rate table, the code's pivot factor is the spec's
`fromToBase` for base `"USD"`. -/
theorem fromUsdFactor_some_rates (rs : Rates) (c : String) :
    fromUsdFactor (some rs) c = .ok (fromToBaseSpec "USD" rs c) := by
  simp only [fromUsdFactor, fromToBaseSpec, ratesRead]
  split_ifs <;> simp [Except.map]

/-- Claim C4: with a valid source currency the bulk request succeeds and
maps every target key to its own outcome — an invalid target code or an
unparsable amount yields a per-key error entry without aborting the rest,
and every valid pair yields a conversion entry; with an invalid source the
whole request fails with a validation error and no per-key results. -/
theorem bulk_isolation_per_key (axC : Except String Currencies)
    (axR : String → Except String Rates) (now : Nat) (st : ServerState)
    (fromCur : String) (amounts : List (String × JsVal)) (c1 : CurrencyCache)
    (curr : Currencies) (rs : Rates)
    (hupd : updateCache axC axR now st.cache "USD" = ⟨c1, none⟩)
    (hcurr : c1.currencies = some curr) (hrs : c1.rates = some rs)
    (hne : fromCur ≠ "") :
    (currenciesHas curr fromCur = true →
      (bulkConvertRoute axC axR now st fromCur amounts).1 =
        .ok fromCur (amounts.map (fun p =>
          (p.1, bulkItemSpecFn curr rs (fromToBaseSpec "USD" rs fromCur) p.1 p.2)))) ∧
    (∀ c a, currenciesHas curr c = false →
      bulkItemSpecFn curr rs (fromToBaseSpec "USD" rs fromCur) c a =
        .err "Invalid currency code") ∧
    (∀ c a, currenciesHas curr c = true → (parseFloatVal a).isNaN = true →
      bulkItemSpecFn curr rs (fromToBaseSpec "USD" rs fromCur) c a =
        .err "Amount must be a number") ∧
    (∀ c a, currenciesHas curr c = true → (parseFloatVal a).isNaN = false →
      bulkItemSpecFn curr rs (fromToBaseSpec "USD" rs fromCur) c a =
        .conv (parseFloatVal a)
          ((fromToBaseSpec "USD" rs fromCur).mul (baseToToSpec "USD" rs c))
          ((parseFloatVal a).mul
            ((fromToBaseSpec "USD" rs fromCur).mul (baseToToSpec "USD" rs c)))) ∧
    (currenciesHas curr fromCur = false →
      (bulkConvertRoute axC axR now st fromCur amounts).1 =
        .validationErr ("Invalid source currency: " ++ fromCur)) := by
  refine ⟨?_, ?_, ?_, ?_, ?_⟩
  · intro hf
    simp [bulkConvertRoute, hne, hupd, hcurr, hf, hrs, fromUsdFactor_some_rates,
      bulkResults_some_rates]
  · intro c a hc
    simp [bulkItemSpecFn, hc]
  · intro c a hc hna
    simp [bulkItemSpecFn, hc, hna]
  · intro c a hc hna
    simp [bulkItemSpecFn, hc, hna]
  · intro hf
    simp [bulkConvertRoute, hne, hupd, hcurr, hf]

/-- The bulk amounts of the spec's bulk example. -/
def demoBulkAmounts : List (String × JsVal) :=
  [("EUR", .num 10), ("ZZZ", .num 5), ("JPY", .str "abc")]

/-- Concrete instance of `bulk_isolation_per_key`: the spec's
example `convertBulk("USD", {EUR: 10, ZZZ: 5, JPY: "abc"})` succeeds as a
whole, EUR converts (rate 2, result 20), ZZZ is a per-key invalid-code
entry and JPY a per-key bad-amount entry. -/
theorem bulk_isolation_per_key_witness :
    (bulkConvertRoute demoAxiosCurrencies demoAxiosRates 2000
        ⟨demoFreshCache, emptyHistoryStore⟩ "USD" demoBulkAmounts).1 =
      .ok "USD"
        [("EUR", bulkItemSpecFn ["USD", "EUR", "JPY"] demoRatesList
            (fromToBaseSpec "USD" demoRatesList "USD") "EUR" (.num 10)),
         ("ZZZ", .err "Invalid currency code"),
         ("JPY", .err "Amount must be a number")] ∧
    bulkItemSpecFn ["USD", "EUR", "JPY"] demoRatesList
        (fromToBaseSpec "USD" demoRatesList "USD") "EUR" (.num 10) =
      .conv (.num 10) (.num 2) (.num 20) :=
  ⟨(bulk_isolation_per_key demoAxiosCurrencies demoAxiosRates 2000
      ⟨demoFreshCache, emptyHistoryStore⟩ "USD" demoBulkAmounts demoFreshCache
      ["USD", "EUR", "JPY"] demoRatesList (by decide) rfl rfl (by decide)).1 (by decide),
   by
     show BulkEntry.conv (.num 10) (.num ((1 : ℚ) * 2)) (.num ((10 : ℚ) * ((1 : ℚ) * 2))) =
       .conv (.num 10) (.num 2) (.num 20)
     norm_num⟩

/-- Truncating after appending to an already-truncated tail is the same as
truncating once. -/
theorem list_take_append_take {α : Type} (a b : List α) (n : Nat) :
    (a ++ b.take n).take n = (a ++ b).take n := by
  rw [List.take_append_eq_append_take, List.take_append_eq_append_take, List.take_take]
  congr 1
  exact congrArg b.take (Nat.min_eq_left (Nat.sub_le n a.length))

/-- Taking from a reversed list is reversing a dropped suffix. -/
theorem list_reverse_take_drop {α : Type} (l : List α) (n : Nat) :
    l.reverse.take n = (l.drop (l.length - n)).reverse := by
  have h := @List.reverse_take α l.reverse n
  simp only [List.reverse_reverse, List.length_reverse] at h
  rw [← List.reverse_reverse (l.reverse.take n), h]

/-- A sequence of history appends for one user, oldest first. -/
def appendAll (store : HistoryStore) (userId : String) (records : List ConversionRecord) :
    HistoryStore :=
  records.foldl (fun st r => appendConversion st userId r) store

/-- Running a sequence of appends over a list no longer than the cap keeps,
newest first, the last 20 inserted records (then the old tail). -/
theorem appendAll_take (userId : String) (records : List ConversionRecord) :
    ∀ store : HistoryStore, (store userId).length ≤ 20 →
      appendAll store userId records userId =
        (records.reverse ++ store userId).take 20 := by
  induction records with
  | nil =>
      intro store hb
      simp [appendAll, List.take_of_length_le hb]
  | cons r rest ih =>
      intro store hb
      have hstep : appendAll store userId (r :: rest) =
          appendAll (appendConversion store userId r) userId rest := rfl
      have hb2 : ((appendConversion store userId r) userId).length ≤ 20 := by
        simp [appendConversion, List.length_take]
      rw [hstep, ih _ hb2]
      have hat : (appendConversion store userId r) userId = (r :: store userId).take 20 := by
        simp [appendConversion]
      rw [hat, list_take_append_take, List.reverse_cons, List.append_assoc]
      rfl

/-- Claim C8: each append inserts the record at the front of that user's
list and truncates to at most 20 entries dropping from the tail, leaving
other users untouched; 25 appends for one fresh user leave exactly the 20
most recent records, newest first (the 5 oldest evicted). -/
theorem history_append_bounded (store : HistoryStore) (userId : String)
    (r : ConversionRecord) :
    appendConversion store userId r userId = (r :: store userId).take 20 ∧
    (appendConversion store userId r userId).length ≤ 20 ∧
    (∀ u, u ≠ userId → appendConversion store userId r u = store u) ∧
    (store userId = [] → ∀ records : List ConversionRecord, records.length = 25 →
      appendAll store userId records userId = records.reverse.take 20 ∧
      appendAll store userId records userId = (records.drop 5).reverse ∧
      (appendAll store userId records userId).length = 20) := by
  refine ⟨by simp [appendConversion], ?_, ?_, ?_⟩
  · simp [appendConversion, List.length_take]
  · intro u hu
    simp [appendConversion, hu]
  · intro h0 records hlen
    have h1 := appendAll_take userId records store (by rw [h0]; simp)
    rw [h0, List.append_nil] at h1
    have h2 : appendAll store userId records userId = (records.drop 5).reverse := by
      rw [h1, list_reverse_take_drop, hlen]
    refine ⟨h1, h2, ?_⟩
    rw [h2]
    simp [List.length_reverse, List.length_drop, hlen]

/-- A distinguishable demonstration record. -/
def demoHistoryRecord (i : Nat) : ConversionRecord :=
  { userId := none, fromCurrency := "USD", toCurrency := "EUR",
    amount := .nan, result := .nan, rate := .nan, timestamp := i }

/-- Twenty-five demonstration records, oldest first. -/
def demoRecords : List ConversionRecord := (List.range 25).map demoHistoryRecord

/-- Concrete instance of `history_append_bounded`: 25 appends for one fresh
user leave the 20 newest records, newest first, and a single append
prepends. -/
theorem history_append_bounded_witness :
    appendAll emptyHistoryStore "anonymous" demoRecords "anonymous" =
      (demoRecords.drop 5).reverse ∧
    (appendAll emptyHistoryStore "anonymous" demoRecords "anonymous").length = 20 ∧
    appendConversion emptyHistoryStore "anonymous" (demoHistoryRecord 0) "anonymous" =
      [demoHistoryRecord 0] :=
  ⟨((history_append_bounded emptyHistoryStore "anonymous" (demoHistoryRecord 0)).2.2.2
      rfl demoRecords (by decide)).2.1,
   ((history_append_bounded emptyHistoryStore "anonymous" (demoHistoryRecord 0)).2.2.2
      rfl demoRecords (by decide)).2.2,
   (history_append_bounded emptyHistoryStore "anonymous" (demoHistoryRecord 0)).1⟩

/-- Demonstration caller 0: requests USD at time 1000. -/
def demoCallerA : CallerCtx := ⟨"USD", 1000, ["USD"], [("EUR", 1)]⟩

/-- Demonstration caller 1: requests USD at time 1001. -/
def demoCallerB : CallerCtx := ⟨"USD", 1001, ["USD"], [("EUR", 3)]⟩

/-- Counterexample to claim C9: two callers that both check a cold cache
before either fetch resolves each start their own refresh — two refresh
operations are in flight at once and the second caller awaits its own
operation, not the first caller's. -/
theorem refresh_stampede_cex :
    inFlight (runSched demoCallerA demoCallerB [false, true]
        (initConcState initialCurrencyCache)) = 2 ∧
    (runSched demoCallerA demoCallerB [false, true]
        (initConcState initialCurrencyCache)).issued =
      [⟨false, "USD", true⟩, ⟨true, "USD", true⟩] ∧
    (runSched demoCallerA demoCallerB [false, true]
        (initConcState initialCurrencyCache)).awaited0 = some ⟨false, "USD", true⟩ ∧
    (runSched demoCallerA demoCallerB [false, true]
        (initConcState initialCurrencyCache)).awaited1 = some ⟨true, "USD", true⟩ ∧
    (⟨false, "USD", true⟩ : RefreshOp) ≠ ⟨true, "USD", true⟩ := by
  decide

/-- A wrong-base caller: the snapshot is fresh at its entry time 2000 but
its requested base EUR differs from the snapshot's. -/
def demoCallerC : CallerCtx := ⟨"EUR", 2000, ["USD", "EUR"], [("EUR", 1)]⟩

/-- A late caller: at its entry time 500000 the snapshot is expired, so it
takes the full-refresh branch. -/
def demoCallerD : CallerCtx := ⟨"USD", 500000, ["USD", "EUR"], [("JPY", 5)]⟩

/-- Claim C9 as amended: the code performs no single-flight coalescing —
when two concurrent callers both observe an expired snapshot before either
fetch resolves, each issues its own independent refresh operation and
awaits its own, with two refreshes in flight at once.  Moreover snapshot
replacement is not atomic across callers: the rates-only branch writes
`rates` through the object reference captured before its `await` while
`baseCurrency` and `lastUpdated` go to the re-evaluated current object, so
a wrong-base refresh that resumes after a concurrent full refresh has
replaced the cache object leaves the live snapshot carrying the full
refresh's rate table under the wrong-base caller's base currency — a
mixed-generation (torn) snapshot that subsequent readers observe. -/
theorem refresh_concurrency_amended (ctx0 ctx1 : CallerCtx) (cache : CurrencyCache) :
    (cacheExpired ctx0.now cache = true → cacheExpired ctx1.now cache = true →
      inFlight (runSched ctx0 ctx1 [false, true] (initConcState cache)) = 2 ∧
      (runSched ctx0 ctx1 [false, true] (initConcState cache)).issued =
        [⟨false, ctx0.base, true⟩, ⟨true, ctx1.base, true⟩] ∧
      (runSched ctx0 ctx1 [false, true] (initConcState cache)).awaited0 =
        some ⟨false, ctx0.base, true⟩ ∧
      (runSched ctx0 ctx1 [false, true] (initConcState cache)).awaited1 =
        some ⟨true, ctx1.base, true⟩) ∧
    (cacheExpired ctx0.now cache = false → cache.baseCurrency ≠ some ctx0.base →
      cacheExpired ctx1.now cache = true →
      (runSched ctx0 ctx1 [false, true, true, false] (initConcState cache)).cache =
        { currencies := some ctx1.currencies, rates := some ctx1.rates,
          baseCurrency := some ctx0.base, lastUpdated := some ctx0.now }) := by
  constructor
  · intro h0 h1
    simp [runSched, concStep, concCheck, ConcState.phase, ConcState.setPhase,
      initConcState, inFlight, h0, h1]
  · intro h0 hb h1
    simp [runSched, concStep, concCheck, concResume, fullSnapshot, ConcState.phase,
      ConcState.setPhase, ConcState.captured, initConcState, h0, hb, h1]

/-- Concrete instances of `refresh_concurrency_amended`: the stampede
schedule on a cold cache, and the torn-snapshot schedule — a wrong-base
EUR caller resuming after a late full USD refresh leaves the USD-generation
rate table under `baseCurrency = "EUR"`. -/
theorem refresh_concurrency_amended_witness :
    (inFlight (runSched demoCallerA demoCallerB [false, true]
        (initConcState initialCurrencyCache)) = 2 ∧
      (runSched demoCallerA demoCallerB [false, true]
          (initConcState initialCurrencyCache)).issued =
        [⟨false, "USD", true⟩, ⟨true, "USD", true⟩] ∧
      (runSched demoCallerA demoCallerB [false, true]
          (initConcState initialCurrencyCache)).awaited0 = some ⟨false, "USD", true⟩ ∧
      (runSched demoCallerA demoCallerB [false, true]
          (initConcState initialCurrencyCache)).awaited1 = some ⟨true, "USD", true⟩) ∧
    (runSched demoCallerC demoCallerD [false, true, true, false]
        (initConcState demoFreshCache)).cache =
      { currencies := some ["USD", "EUR"], rates := some [("JPY", (5 : ℚ))],
        baseCurrency := some "EUR", lastUpdated := some 2000 } :=
  ⟨(refresh_concurrency_amended demoCallerA demoCallerB initialCurrencyCache).1
      (by decide) (by decide),
   (refresh_concurrency_amended demoCallerC demoCallerD demoFreshCache).2
      (by decide) (by decide) (by decide)⟩
